import Mathlib

/-!
# Verification of portly's network-health monitoring core (src/main.ts)

Shallow embedding of the monitoring, metrics-buffer and port-merge logic of
`src/main.ts`.  Latencies (JS numbers) are modelled as rationals; JS arrays as
Lean lists; the JS `Map` as an insertion-ordered association list; a `tauri`
invoke that throws is modelled by an explicit `thrown` outcome constructor.
Line numbers in comments refer to `src/main.ts`.
-/

/-- The `PingOneResult` payload of `tauri_ping_one` (main.ts lines 732-739).
Display-only fields (`ip`, `seq`, `ttl`, `line`) are omitted; only `success`
and `time_ms` drive the recording logic. -/
structure PingOneResult where
  success : Bool
  time_ms : Option ℚ
deriving DecidableEq

/-- One probe invocation as seen by a recording site: either the promise
resolved with a `PingOneResult`, or the `invoke` threw (landing in `catch`). -/
inductive ProbeOutcome where
  | result (r : PingOneResult)
  | thrown
deriving DecidableEq

/-- The JS condition `result.success && result.time_ms` (lines 795, 983, 1204):
the recorded latency when the probe counts as a success, `none` otherwise.
`time_ms = 0` is falsy in JS, hence not a success. -/
def successValue (r : PingOneResult) : Option ℚ :=
  if r.success then
    match r.time_ms with
    | some t => if t = 0 then none else some t
    | none => none
  else none

/-- The JS idiom `if (xs.length > 60) xs.shift()` (lines 804-805, 993, 1212):
drop the oldest entry once the buffer exceeds 60. -/
def trimStep {α : Type} (l : List α) : List α :=
  if 60 < l.length then l.tail else l

/-- State of the single-target continuous ping in `runPing` (lines 753-756,
790-806): the local counters `sent`/`received`, the `times` list of successful
latencies, and `pingHistory` (only its `ms` field; the `time: Date.now()`
field is display-only and omitted). -/
structure PingState where
  sent : ℕ
  received : ℕ
  times : List ℚ
  pingHistory : List (Option ℚ)
deriving DecidableEq

/-- Fresh state at the start of `runPing` (lines 751-756). -/
def initPing : PingState :=
  { sent := 0, received := 0, times := [], pingHistory := [] }

/-- One iteration of `doPing` (lines 790-806) restricted to its data effects.
On a resolved result: `sent++`; on success additionally `received++`,
`times.push`, `pingHistory.push(ms)`; otherwise `pingHistory.push(null)`;
then both lists are trimmed to 60.  When `invoke` throws, the `catch`
(lines 843-845) only logs: the state is unchanged. -/
def recordPing (s : PingState) (o : ProbeOutcome) : PingState :=
  match o with
  | .thrown => s
  | .result r =>
    let s1 : PingState := { s with sent := s.sent + 1 }
    let s2 : PingState :=
      match successValue r with
      | some t =>
        { s1 with
          received := s1.received + 1
          times := s1.times ++ [t]
          pingHistory := s1.pingHistory ++ [some t] }
      | none => { s1 with pingHistory := s1.pingHistory ++ [none] }
    let s3 : PingState :=
      if 60 < s2.pingHistory.length then { s2 with pingHistory := s2.pingHistory.tail } else s2
    if 60 < s3.times.length then { s3 with times := s3.times.tail } else s3

/-- The rolling average of `doPing` (line 808):
`times.length > 0 ? times.reduce((a,b) => a+b, 0) / times.length : 0`.
Note it is a number (0 when `times` is empty), rendered unconditionally as
`avgMs.toFixed(1) + "ms"` (line 821). -/
def avgMs (s : PingState) : ℚ :=
  if 0 < s.times.length then s.times.sum / s.times.length else 0

/-- `doPing`'s loss rate (line 809) as a ratio in `[0,1]`; the code displays
`ratio * 100` with one decimal, `"0"` when `sent == 0`. -/
def lossRatePing (s : PingState) : ℚ :=
  if s.sent = 0 then 0 else ((s.sent : ℚ) - (s.received : ℚ)) / (s.sent : ℚ)

/-- Per-device state `DevicePingData` (lines 935-941) of the multi-device
spectrum view, identical to `MonitorDevice` (lines 1128-1134) of the monitor
page.  The `ip` key is kept outside (in the device map). -/
structure DeviceData where
  history : List (Option ℚ)
  lastMs : Option ℚ
  sent : ℕ
  received : ℕ
deriving DecidableEq

/-- Fresh device entry (lines 961-967, 1176-1182). -/
def initDevice : DeviceData :=
  { history := [], lastMs := none, sent := 0, received := 0 }

/-- One per-target recording step shared verbatim by `doPingAll`
(lines 979-996) and `doPingBatch` (lines 1200-1215).  On a resolved result:
`sent++`; success sets `received++`, `lastMs`, `history.push(ms)`; failure
sets `lastMs = null`, `history.push(null)`; then
`if (history.length > 60) history.shift()`.  The `catch` branch
(lines 994-996, 1213-1215) does only `history.push(null)`: no counter update
and no trim. -/
def recordBatch (d : DeviceData) (o : ProbeOutcome) : DeviceData :=
  match o with
  | .thrown => { d with history := d.history ++ [none] }
  | .result r =>
    let d1 : DeviceData := { d with sent := d.sent + 1 }
    let d2 : DeviceData :=
      match successValue r with
      | some t =>
        { d1 with
          received := d1.received + 1
          lastMs := some t
          history := d1.history ++ [some t] }
      | none => { d1 with lastMs := none, history := d1.history ++ [none] }
    { d2 with history := trimStep d2.history }

/-- Per-device average of the spectrum legend (lines 1095-1101): mean of the
non-null entries of `history`, `null` when there are none. -/
def spectrumAvg (d : DeviceData) : Option ℚ :=
  let succ := d.history.filterMap id
  if 0 < succ.length then some (succ.sum / succ.length) else none

/-- Per-device loss rate of the spectrum legend (line 1100) as a ratio in
`[0,1]`; the code displays `ratio * 100` with one decimal, `'0'` when
`sent == 0`. -/
def lossRateDev (d : DeviceData) : ℚ :=
  if d.sent = 0 then 0 else ((d.sent : ℚ) - (d.received : ℚ)) / (d.sent : ℚ)

/-- Modelled from the spec's words (§4.3): the average `stats()` is claimed to
return — the mean over exactly the successful samples currently held in the
history buffer, absent when none is buffered.  Used only to compare the code's
averages against the claim. -/
def bufferedSuccessAvg (h : List (Option ℚ)) : Option ℚ :=
  match h.filterMap id with
  | [] => none
  | l => some (l.sum / l.length)

/-- The at-most-`n`-long suffix of a list: what remains of the appended stream
after FIFO eviction down to capacity `n`. -/
def suffixAtMost {α : Type} (n : ℕ) (l : List α) : List α :=
  l.drop (l.length - n)

/-- The sample value a non-thrown outcome appends to a batch history. -/
def outcomeSample (o : ProbeOutcome) : Option ℚ :=
  match o with
  | .result r => successValue r
  | .thrown => none

/-- The sample `doPing` appends for an outcome: thrown outcomes append
nothing in the single-target path. -/
def resultSample (o : ProbeOutcome) : Option (Option ℚ) :=
  match o with
  | .result r => some (successValue r)
  | .thrown => none

/-! ## Port inventory merge and filtering (`scanPorts`, `renderTable`) -/

/-- `PortInfo` (lines 5-13): one host-level port entry from
`tauri_scan_ports`. -/
structure PortInfo where
  port : ℕ
  protocol : String
  address : String
  pid : String
  process : String
  user : String
  command : Option String
deriving DecidableEq

/-- `DockerPort` (lines 49-54). -/
structure DockerPort where
  host_port : ℕ
  container_port : ℕ
  protocol : String
  host_ip : String
deriving DecidableEq

/-- `DockerContainer` (lines 56-62). -/
structure DockerContainer where
  id : String
  name : String
  image : String
  status : String
  ports : List DockerPort
deriving DecidableEq

/-- `Map.set` of a JS `Map`: update the value in place when the key exists,
append at the end otherwise (insertion order preserved). -/
def mapSet (m : List (ℕ × String)) (k : ℕ) (v : String) : List (ℕ × String) :=
  if m.any (fun e => e.1 = k) then
    m.map (fun e => if e.1 = k then (k, v) else e)
  else m ++ [(k, v)]

/-- `Map.get` of a JS `Map` (`Map.has` is `(mapGet m k).isSome`). -/
def mapGet (m : List (ℕ × String)) (k : ℕ) : Option String :=
  (m.find? (fun e => e.1 = k)).map (·.2)

/-- The docker host-port lookup built by `scanPorts` (lines 168-175):
`for (const c of containers) for (const p of c.ports)
  dockerPorts.set(p.host_port, c.name)`. -/
def buildDockerPorts (cs : List DockerContainer) : List (ℕ × String) :=
  cs.foldl (fun m c => c.ports.foldl (fun m p => mapSet m p.host_port c.name) m) []

/-- The `sourceFilter` segment state (line 106): `"all" | "local" | "docker"`. -/
inductive SourceFilter where
  | all
  | localSrc
  | docker
deriving DecidableEq

/-- The filter inputs read by `scanPorts`: `appFilter.value`,
the parsed `portFilter` value (`none` models an empty field or a `parseInt`
result of `NaN`, both of which skip the port filter, lines 189-195),
`excludeSystem.checked` and the `sourceFilter` segment. -/
structure ScanFilters where
  appFilterValue : String
  portFilterNum : Option Int
  excludeSystem : Bool
  sourceFilter : SourceFilter
deriving DecidableEq

/-- The fixed deny-list of `scanPorts` (line 198). -/
def systemProcs : List String :=
  ["controlce", "rapportd", "netdisk_s", "mds", "launchd"]

/-- JS `String.prototype.toLowerCase` (ASCII case mapping suffices for the
process names involved). -/
def lowerStr (s : String) : String := String.mk (s.data.map Char.toLower)

/-- JS `String.prototype.trim`: strip leading and trailing whitespace. -/
def trimStr (s : String) : String :=
  String.mk (((s.data.dropWhile Char.isWhitespace).reverse.dropWhile Char.isWhitespace).reverse)

/-- Whether `pat` occurs as a contiguous segment of `s`. -/
def containsSeg (s pat : List Char) : Bool :=
  match s with
  | [] => pat.isEmpty
  | _ :: t => pat.isPrefixOf s || containsSeg t pat

/-- JS `String.prototype.includes`. -/
def strContains (s pat : String) : Bool :=
  containsSeg s.toList pat.toList

/-- `scanPorts` lines 182-187: the name filter, matched case-insensitively
against the raw `p.process`, skipped when the trimmed input is empty. -/
def appNameStage (appV : String) (ports : List PortInfo) : List PortInfo :=
  if appV ≠ "" then ports.filter (fun p => strContains (lowerStr p.process) appV) else ports

/-- `scanPorts` lines 189-195: exact port equality when a number was parsed. -/
def portStage (n? : Option Int) (ports : List PortInfo) : List PortInfo :=
  match n? with
  | some n => ports.filter (fun p => (p.port : Int) = n)
  | none => ports

/-- `scanPorts` lines 197-202: drop the deny-listed process names, compared
against the raw lower-cased `p.process`. -/
def excludeStage (b : Bool) (ports : List PortInfo) : List PortInfo :=
  if b then ports.filter (fun p => !(systemProcs.contains (lowerStr p.process))) else ports

/-- `scanPorts` lines 206-210: source-scope filtering by membership of the
port number in the docker lookup. -/
def sourceStage (sf : SourceFilter) (m : List (ℕ × String)) (ports : List PortInfo) :
    List PortInfo :=
  match sf with
  | .docker => ports.filter (fun p => (mapGet m p.port).isSome)
  | .localSrc => ports.filter (fun p => !(mapGet m p.port).isSome)
  | .all => ports

/-- The filtering phase of `scanPorts` (lines 180-210), in source order:
name filter, port filter, system exclusion, source scope. -/
def applyFilters (f : ScanFilters) (m : List (ℕ × String)) (ports : List PortInfo) :
    List PortInfo :=
  sourceStage f.sourceFilter m
    (excludeStage f.excludeSystem
      (portStage f.portFilterNum
        (appNameStage (lowerStr (trimStr f.appFilterValue)) ports)))

/-- Provenance of a displayed entry: host-local (`💻` row) or published by a
docker container (`🐳` row, line 241-247). Spec §3 calls these `Local` and
`Container(name)`. -/
inductive Provenance where
  | host
  | docker (name : String)
deriving DecidableEq

/-- One row of the merged table as `renderTable` builds it (lines 241-247):
the underlying entry, its provenance and the displayed identity. -/
structure RenderedPort where
  info : PortInfo
  provenance : Provenance
  display : String
deriving DecidableEq

/-- `renderTable` lines 242-247: `dockerContainer = dockerPorts?.get(p.port)`,
`isDocker = !!dockerContainer` — an empty container name is falsy, so such an
entry renders as host-local. -/
def renderPort (m : List (ℕ × String)) (p : PortInfo) : RenderedPort :=
  match mapGet m p.port with
  | some name => if name = "" then ⟨p, .host, p.process⟩ else ⟨p, .docker name, name⟩
  | none => ⟨p, .host, p.process⟩

/-- The data path of one `scanPorts` refresh (lines 158-227): the container
listing is requested in its own `try`; on failure the lookup stays the empty
map (lines 176-178) and the refresh continues — the function is total, so the
container failure never reaches the caller. Then filters and the provenance
rewrite of `renderTable` are applied. -/
def scanPipeline (hostPorts : List PortInfo)
    (containersResult : Except String (List DockerContainer)) (f : ScanFilters) :
    List RenderedPort :=
  let m := match containersResult with
    | .ok cs => buildDockerPorts cs
    | .error _ => []
  (applyFilters f m hostPorts).map (renderPort m)

/-- Modelled from the spec's words (§4.5, claim C4): the same pipeline but
with the name filter and the system exclusion evaluated against the
post-provenance-rewrite displayed identity instead of the raw process name.
Used only to compare the code against the claim. -/
def specIdentityPipeline (hostPorts : List PortInfo)
    (containersResult : Except String (List DockerContainer)) (f : ScanFilters) :
    List RenderedPort :=
  let m := match containersResult with
    | .ok cs => buildDockerPorts cs
    | .error _ => []
  let disp := fun p => (renderPort m p).display
  let appV := lowerStr (trimStr f.appFilterValue)
  let ports := if appV ≠ "" then
    hostPorts.filter (fun p => strContains (lowerStr (disp p)) appV) else hostPorts
  let ports := portStage f.portFilterNum ports
  let ports := if f.excludeSystem then
    ports.filter (fun p => ¬ systemProcs.contains (lowerStr (disp p))) else ports
  (sourceStage f.sourceFilter m ports).map (renderPort m)

/-- The default filter configuration: empty inputs, unchecked box, scope all. -/
def noFilters : ScanFilters :=
  { appFilterValue := "", portFilterNum := none, excludeSystem := false,
    sourceFilter := .all }

/-! ## Cycle batching and scheduler control (`doPingBatch`, `startMonitor`,
`stopMonitor`, `runPing`) -/

/-- The batch partition of `doPingBatch` (lines 1194-1198):
`for (let i = 0; i < devices.length; i += batchSize)
   batch = devices.slice(i, i + batchSize)` with `batchSize = 5` —
each recursive step takes the next `k` elements. -/
def batchesAux {α : Type} (k : ℕ) : ℕ → List α → List (List α)
  | 0, _ => []
  | _, [] => []
  | fuel + 1, x :: xs => (x :: xs.take (k - 1)) :: batchesAux k fuel (xs.drop (k - 1))

/-- The partition itself (the fuel `l.length` always suffices). -/
def batches {α : Type} (k : ℕ) (l : List α) : List (List α) :=
  batchesAux k l.length l

/-- Events of the monitor-page cycle scheduler, an abstraction of the JS
event loop around `startMonitor`/`stopMonitor` (lines 1161-1235):
`tick` is the `setInterval` callback firing and dispatching one cycle's
probes (their eventual outcomes listed per ip), `settle` is the dispatched
`doPingBatch` run completing and writing its results, `stopEv` is
`stopMonitor()` (`clearInterval`, lines 1228-1235). -/
inductive SchedEv where
  | tick (outs : List (String × ProbeOutcome))
  | settle
  | stopEv
deriving DecidableEq

/-- Whether an event is a cycle start. -/
def SchedEv.isTick : SchedEv → Bool
  | .tick _ => true
  | _ => false

/-- Scheduler state: whether `monitorInterval` is set (so new ticks can
fire), the batch currently in flight, and the per-device buffers
`monitorDevices`. -/
structure SchedState where
  intervalActive : Bool
  pending : Option (List (String × ProbeOutcome))
  bufs : List (String × DeviceData)
deriving DecidableEq

/-- Write a completed batch's outcomes into the per-device buffers, as the
loop body of `doPingBatch` does via `monitorDevices.get(ip)` followed by the
recording step (lines 1200-1215). -/
def recordAll (bufs : List (String × DeviceData))
    (outs : List (String × ProbeOutcome)) : List (String × DeviceData) :=
  outs.foldl
    (fun bs io =>
      bs.map (fun e => if e.1 = io.1 then (e.1, recordBatch e.2 io.2) else e))
    bufs

/-- Scheduler transition. `stopMonitor` only clears the interval: it does not
cancel the in-flight batch and does not touch `monitorDevices`
(lines 1228-1235). -/
def schedStep (s : SchedState) : SchedEv → SchedState
  | .tick outs => { s with pending := some outs }
  | .settle =>
    match s.pending with
    | some outs => { s with pending := none, bufs := recordAll s.bufs outs }
    | none => s
  | .stopEv => { s with intervalActive := false }

/-- Which events the JS runtime can deliver in a state: an interval callback
fires only while the interval is registered (and, single-threaded, not while
its previous run is still awaiting), a batch settles only if one is in
flight, and `stopMonitor` can always be called. -/
def schedEnabled (s : SchedState) : SchedEv → Prop
  | .tick _ => s.intervalActive = true ∧ s.pending = none
  | .settle => s.pending.isSome = true
  | .stopEv => True

/-- A run of scheduler events in which every event was enabled when it
fired. -/
inductive ValidRun : SchedState → List SchedEv → Prop
  | nil (s : SchedState) : ValidRun s []
  | cons {s : SchedState} {e : SchedEv} {es : List SchedEv}
      (he : schedEnabled s e) (hrest : ValidRun (schedStep s e) es) :
      ValidRun s (e :: es)

/-- State of the single-target continuous ping loop: whether
`pingMonitorInterval` is set, plus the metric state. -/
structure PingMonitor where
  running : Bool
  st : PingState
deriving DecidableEq

/-- `runPing`'s entry behaviour (lines 741-756): if the loop is already
running, it calls `stopPingMonitor()` and returns — a toggle, not an error;
otherwise it resets the metric state and starts the interval loop. -/
def runPingToggle (m : PingMonitor) : PingMonitor :=
  if m.running then { m with running := false }
  else { running := true, st := initPing }

/-- Interval-loop accounting for `startMonitor`/`stopMonitor`:
`handle` is the `monitorInterval` variable, `liveIntervals` counts interval
loops started by `setInterval` and not yet cleared by `clearInterval`. -/
structure MonitorSched where
  liveIntervals : ℕ
  handle : Option ℕ
deriving DecidableEq

/-- `startMonitor` (lines 1161-1226) performs no already-running check: it
unconditionally schedules a new interval loop and overwrites
`monitorInterval` with the new id, without clearing any previous loop. -/
def startMonitorStep (m : MonitorSched) (newId : ℕ) : MonitorSched :=
  { liveIntervals := m.liveIntervals + 1, handle := some newId }

/-- `stopMonitor` (lines 1228-1235): clears the one interval named by
`monitorInterval`, if any. -/
def stopMonitorStep (m : MonitorSched) : MonitorSched :=
  match m.handle with
  | some _ => { liveIntervals := m.liveIntervals - 1, handle := none }
  | none => m

/-- The predicate the three name/port/exclusion filter stages of `scanPorts`
jointly apply (stages composed innermost-first).  It reads only the raw
`p.process` and `p.port` of the host entry: the container lookup plays no
part in it. -/
def rawKeep (f : ScanFilters) (p : PortInfo) : Bool :=
  ((!f.excludeSystem || !(systemProcs.contains (lowerStr p.process)))
      && (match f.portFilterNum with
          | some n => decide ((p.port : Int) = n)
          | none => true))
    && (decide (lowerStr (trimStr f.appFilterValue) = "")
        || strContains (lowerStr p.process) (lowerStr (trimStr f.appFilterValue)))

/-! ## Helper lemmas -/

theorem trimStep_subset {α : Type} (l : List α) : trimStep l ⊆ l := by
  unfold trimStep
  split
  · exact List.tail_subset l
  · exact fun a h => h

theorem suffixAtMost_length_le {α : Type} (n : ℕ) (l : List α) :
    (suffixAtMost n l).length ≤ n := by
  simp only [suffixAtMost, List.length_drop]
  omega

theorem suffixAtMost_snoc {α : Type} (l : List α) (a : α) :
    suffixAtMost 60 (l ++ [a]) = trimStep (suffixAtMost 60 l ++ [a]) := by
  unfold suffixAtMost trimStep
  by_cases h : l.length ≤ 59
  · have h1 : (l ++ [a]).length - 60 = 0 := by
      simp only [List.length_append, List.length_cons, List.length_nil]
      omega
    have h2 : l.length - 60 = 0 := by omega
    rw [h1, h2, List.drop_zero, List.drop_zero,
      if_neg (show ¬ 60 < (l ++ [a]).length by
        simp only [List.length_append, List.length_cons, List.length_nil]
        omega)]
  · push_neg at h
    have hlen : (l.drop (l.length - 60)).length = 60 := by
      simp only [List.length_drop]
      omega
    have hcond : 60 < (l.drop (l.length - 60) ++ [a]).length := by
      simp only [List.length_append, hlen, List.length_cons, List.length_nil]
      omega
    rw [if_pos hcond]
    have hne : l.drop (l.length - 60) ≠ [] := by
      intro hnil
      rw [hnil] at hlen
      simp at hlen
    rw [List.tail_append_of_ne_nil hne, List.tail_drop]
    have harith : l.length - 60 + 1 = (l ++ [a]).length - 60 := by
      simp only [List.length_append, List.length_cons, List.length_nil]
      omega
    rw [harith]
    have hle : (l ++ [a]).length - 60 ≤ l.length := by
      simp only [List.length_append, List.length_cons, List.length_nil]
      omega
    rw [List.drop_append_of_le_length hle]

theorem recordBatch_result_history (d : DeviceData) (r : PingOneResult) :
    (recordBatch d (.result r)).history = trimStep (d.history ++ [successValue r]) := by
  unfold recordBatch
  cases h : successValue r <;> simp [h]

theorem recordBatch_result_sent (d : DeviceData) (r : PingOneResult) :
    (recordBatch d (.result r)).sent = d.sent + 1 := by
  unfold recordBatch
  cases h : successValue r <;> simp [h]

theorem recordBatch_result_received (d : DeviceData) (r : PingOneResult) :
    (recordBatch d (.result r)).received =
      (if successValue r = none then d.received else d.received + 1) := by
  unfold recordBatch
  cases h : successValue r <;> simp [h]

theorem recordPing_result_pingHistory (s : PingState) (r : PingOneResult) :
    (recordPing s (.result r)).pingHistory = trimStep (s.pingHistory ++ [successValue r]) := by
  unfold recordPing trimStep
  cases h : successValue r <;> simp only [h] <;> split <;> split <;> rfl

theorem recordPing_result_times (s : PingState) (r : PingOneResult) :
    (recordPing s (.result r)).times =
      (if 60 < (match successValue r with
          | some t => s.times ++ [t]
          | none => s.times).length
        then (match successValue r with
          | some t => s.times ++ [t]
          | none => s.times).tail
        else (match successValue r with
          | some t => s.times ++ [t]
          | none => s.times)) := by
  unfold recordPing
  cases h : successValue r <;> simp only [h] <;> split <;> split <;> rfl

theorem recordPing_result_sent (s : PingState) (r : PingOneResult) :
    (recordPing s (.result r)).sent = s.sent + 1 := by
  unfold recordPing
  cases h : successValue r <;> simp only [h] <;> split <;> split <;> rfl

theorem recordPing_result_received (s : PingState) (r : PingOneResult) :
    (recordPing s (.result r)).received =
      (if successValue r = none then s.received else s.received + 1) := by
  unfold recordPing
  cases h : successValue r <;> simp only [h] <;> split <;> split <;> rfl

theorem foldl_recordBatch_history (os : List ProbeOutcome) :
    ∀ (d : DeviceData) (l : List (Option ℚ)), (∀ o ∈ os, o ≠ ProbeOutcome.thrown) →
    d.history = suffixAtMost 60 l →
    (os.foldl recordBatch d).history = suffixAtMost 60 (l ++ os.map outcomeSample) := by
  induction os with
  | nil =>
    intro d l _ hd
    simpa using hd
  | cons o os ih =>
    intro d l h hd
    cases o with
    | thrown => exact absurd rfl (h .thrown (List.mem_cons_self _ _))
    | result r =>
      have hstep : (recordBatch d (.result r)).history
          = suffixAtMost 60 (l ++ [successValue r]) := by
        rw [recordBatch_result_history, hd, suffixAtMost_snoc]
      have := ih (recordBatch d (.result r)) (l ++ [successValue r])
        (fun o ho => h o (List.mem_cons_of_mem _ ho)) hstep
      simpa [outcomeSample, List.append_assoc] using this

theorem foldl_recordPing_pingHistory (os : List ProbeOutcome) :
    ∀ (s : PingState) (l : List (Option ℚ)), s.pingHistory = suffixAtMost 60 l →
    (os.foldl recordPing s).pingHistory
      = suffixAtMost 60 (l ++ os.filterMap resultSample) := by
  induction os with
  | nil =>
    intro s l hd
    simpa using hd
  | cons o os ih =>
    intro s l hd
    cases o with
    | thrown =>
      have := ih s l hd
      simpa [resultSample] using this
    | result r =>
      have hstep : (recordPing s (.result r)).pingHistory
          = suffixAtMost 60 (l ++ [successValue r]) := by
        rw [recordPing_result_pingHistory, hd, suffixAtMost_snoc]
      have := ih (recordPing s (.result r)) (l ++ [successValue r]) hstep
      simpa [resultSample, List.append_assoc] using this

theorem foldl_recordPing_counters (os : List ProbeOutcome) :
    ∀ s : PingState, s.received ≤ s.sent →
    (os.foldl recordPing s).received ≤ (os.foldl recordPing s).sent := by
  induction os with
  | nil => exact fun s h => h
  | cons o os ih =>
    intro s h
    apply ih
    cases o with
    | thrown => exact h
    | result r =>
      rw [recordPing_result_sent, recordPing_result_received]
      split <;> omega

theorem foldl_recordBatch_counters (os : List ProbeOutcome) :
    ∀ d : DeviceData, d.received ≤ d.sent →
    (os.foldl recordBatch d).received ≤ (os.foldl recordBatch d).sent := by
  induction os with
  | nil => exact fun d h => h
  | cons o os ih =>
    intro d h
    apply ih
    cases o with
    | thrown => exact h
    | result r =>
      rw [recordBatch_result_sent, recordBatch_result_received]
      split <;> omega

theorem lossRatio_bounds (sent received : ℕ) (h : received ≤ sent) :
    0 ≤ (if sent = 0 then (0 : ℚ) else ((sent : ℚ) - (received : ℚ)) / (sent : ℚ))
    ∧ (if sent = 0 then (0 : ℚ) else ((sent : ℚ) - (received : ℚ)) / (sent : ℚ)) ≤ 1 := by
  split
  · norm_num
  · rename_i hs
    have hpos : (0 : ℚ) < (sent : ℚ) := by
      exact_mod_cast Nat.pos_of_ne_zero hs
    have hle : (received : ℚ) ≤ (sent : ℚ) := by exact_mod_cast h
    constructor
    · apply div_nonneg _ hpos.le
      linarith
    · rw [div_le_one hpos]
      have : (0 : ℚ) ≤ (received : ℚ) := by positivity
      linarith

theorem foldl_recordPing_times_nil (os : List ProbeOutcome) :
    ∀ s : PingState, (∀ o ∈ os, outcomeSample o = none) → s.times = [] →
    (os.foldl recordPing s).times = [] := by
  induction os with
  | nil => exact fun s _ h => h
  | cons o os ih =>
    intro s h ht
    apply ih _ (fun o ho => h o (List.mem_cons_of_mem _ ho))
    cases o with
    | thrown => exact ht
    | result r =>
      have hs : successValue r = none := h (.result r) (List.mem_cons_self _ _)
      rw [recordPing_result_times, hs]
      simp [ht]

theorem foldl_recordBatch_allNone (os : List ProbeOutcome) :
    ∀ d : DeviceData, (∀ o ∈ os, outcomeSample o = none) →
    (∀ x ∈ d.history, x = none) →
    ∀ x ∈ (os.foldl recordBatch d).history, x = none := by
  induction os with
  | nil => exact fun d _ h => h
  | cons o os ih =>
    intro d h hd
    apply ih _ (fun o ho => h o (List.mem_cons_of_mem _ ho))
    cases o with
    | thrown =>
      intro x hx
      rcases List.mem_append.mp hx with hx | hx
      · exact hd x hx
      · simpa using hx
    | result r =>
      have hs : successValue r = none := h (.result r) (List.mem_cons_self _ _)
      intro x hx
      have hx2 := trimStep_subset _ (by rw [← recordBatch_result_history]; exact hx)
      rcases List.mem_append.mp (by rw [hs] at hx2; exact hx2) with hx3 | hx3
      · exact hd x hx3
      · simpa using hx3

theorem batchesAux_flatten {α : Type} (k : ℕ) :
    ∀ (fuel : ℕ) (l : List α), l.length ≤ fuel → (batchesAux k fuel l).flatten = l := by
  intro fuel
  induction fuel with
  | zero =>
    intro l hl
    rw [List.length_eq_zero.mp (Nat.le_zero.mp hl)]
    rfl
  | succ fuel ih =>
    intro l hl
    cases l with
    | nil => rfl
    | cons x xs =>
      simp only [batchesAux, List.flatten_cons]
      rw [ih (xs.drop (k - 1)) (by simp only [List.length_drop]; simp at hl; omega)]
      simp [List.take_append_drop]

theorem batchesAux_sizes {α : Type} (k : ℕ) (hk : 1 ≤ k) :
    ∀ (fuel : ℕ) (l : List α) (b : List α), b ∈ batchesAux k fuel l → b.length ≤ k := by
  intro fuel
  induction fuel with
  | zero =>
    intro l b hb
    simp [batchesAux] at hb
  | succ fuel ih =>
    intro l b hb
    cases l with
    | nil => simp [batchesAux] at hb
    | cons x xs =>
      simp only [batchesAux, List.mem_cons] at hb
      rcases hb with hb | hb
      · subst hb
        simp only [List.length_cons, List.length_take]
        omega
      · exact ih _ _ hb

theorem schedStep_intervalActive_false (s : SchedState) (e : SchedEv)
    (h : s.intervalActive = false) : (schedStep s e).intervalActive = false := by
  cases e with
  | tick outs => exact h
  | settle =>
    unfold schedStep
    cases hp : s.pending <;> simp [hp, h]
  | stopEv => rfl

theorem validRun_no_tick (s : SchedState) (evs : List SchedEv)
    (h : s.intervalActive = false) (hrun : ValidRun s evs) :
    evs.all (fun e => !e.isTick) = true := by
  induction hrun with
  | nil => rfl
  | cons he hrest ih =>
    rename_i s e es
    cases e with
    | tick outs =>
      simp [schedEnabled, h] at he
    | settle =>
      simpa [SchedEv.isTick] using ih (schedStep_intervalActive_false _ _ h)
    | stopEv =>
      simpa [SchedEv.isTick] using ih (schedStep_intervalActive_false _ _ h)

theorem appNameStage_eq_filter (appV : String) (ports : List PortInfo) :
    appNameStage appV ports
      = ports.filter (fun p =>
          decide (appV = "") || strContains (lowerStr p.process) appV) := by
  unfold appNameStage
  by_cases h : appV = ""
  · simp [h]
  · simp [h]

theorem portStage_eq_filter (n? : Option Int) (ports : List PortInfo) :
    portStage n? ports
      = ports.filter (fun p =>
          match n? with
          | some n => decide ((p.port : Int) = n)
          | none => true) := by
  cases n? with
  | none => simp [portStage]
  | some n => rfl

theorem excludeStage_eq_filter (b : Bool) (ports : List PortInfo) :
    excludeStage b ports
      = ports.filter (fun p => !b || !(systemProcs.contains (lowerStr p.process))) := by
  cases b with
  | false => simp [excludeStage]
  | true => simp [excludeStage]

theorem applyFilters_all_eq_rawKeep (f : ScanFilters) (m : List (ℕ × String))
    (ports : List PortInfo) (h : f.sourceFilter = SourceFilter.all) :
    applyFilters f m ports = ports.filter (rawKeep f) := by
  unfold applyFilters
  rw [h]
  show excludeStage f.excludeSystem
      (portStage f.portFilterNum
        (appNameStage (lowerStr (trimStr f.appFilterValue)) ports)) = _
  rw [appNameStage_eq_filter, portStage_eq_filter, excludeStage_eq_filter,
    List.filter_filter, List.filter_filter]
  rfl

theorem renderPort_info (m : List (ℕ × String)) (p : PortInfo) :
    (renderPort m p).info = p := by
  unfold renderPort
  cases mapGet m p.port with
  | none => rfl
  | some name =>
    by_cases h : name = "" <;> simp [h]

theorem renderPort_nil (p : PortInfo) :
    renderPort [] p = ⟨p, Provenance.host, p.process⟩ := rfl

/-! ## Claim theorems -/

set_option maxRecDepth 4000 in
/-- C1, counterexample: the claim says the buffered history length never
exceeds 60 for every sequence of record() calls, including appends made on a
thrown probe error.  But after 60 recorded failures, one thrown-error append
(the `catch` branch of `doPingAll`/`doPingBatch`) pushes the history to 61
entries: the trim is skipped on that path. -/
theorem c1_capacity_counterexample :
    (((List.replicate 60 (ProbeOutcome.result { success := false, time_ms := none })
        ++ [ProbeOutcome.thrown]).foldl recordBatch initDevice).history).length = 61 := by
  decide

/-- C1, amended: for every sequence of record() calls in which each appended
outcome came from a resolved probe (success or failure — not a thrown probe
error), the history is exactly the at-most-60-long suffix of the appended
sample stream, so its length never exceeds 60 and eviction is oldest-first
FIFO.  In the single-target `doPing` path this holds for arbitrary sequences,
because its `catch` appends nothing.  (Thrown-error appends in the
multi-target paths bypass the trim; see C10.) -/
theorem c1_capacity_amended (os : List ProbeOutcome)
    (h : ∀ o ∈ os, o ≠ ProbeOutcome.thrown) :
    (os.foldl recordBatch initDevice).history = suffixAtMost 60 (os.map outcomeSample)
    ∧ (os.foldl recordBatch initDevice).history.length ≤ 60
    ∧ (os.foldl recordPing initPing).pingHistory
        = suffixAtMost 60 (os.filterMap resultSample)
    ∧ (os.foldl recordPing initPing).pingHistory.length ≤ 60 := by
  have h1 := foldl_recordBatch_history os initDevice [] h rfl
  have h2 := foldl_recordPing_pingHistory os initPing [] rfl
  rw [List.nil_append] at h1 h2
  refine ⟨h1, ?_, h2, ?_⟩
  · rw [h1]
    exact suffixAtMost_length_le _ _
  · rw [h2]
    exact suffixAtMost_length_le _ _

/-- Witness for C1 (amended) at a concrete two-outcome run. -/
theorem c1_capacity_amended_witness :
    ProbeOutcome.thrown
        ∉ [ProbeOutcome.result { success := true, time_ms := some 12 },
           ProbeOutcome.result { success := false, time_ms := none }]
    ∧ (([ProbeOutcome.result { success := true, time_ms := some 12 },
         ProbeOutcome.result { success := false, time_ms := none }].foldl
            recordBatch initDevice).history
        = suffixAtMost 60
            ([ProbeOutcome.result { success := true, time_ms := some 12 },
              ProbeOutcome.result { success := false, time_ms := none }].map outcomeSample)
      ∧ ([ProbeOutcome.result { success := true, time_ms := some 12 },
          ProbeOutcome.result { success := false, time_ms := none }].foldl
            recordBatch initDevice).history.length ≤ 60
      ∧ ([ProbeOutcome.result { success := true, time_ms := some 12 },
          ProbeOutcome.result { success := false, time_ms := none }].foldl
            recordPing initPing).pingHistory
        = suffixAtMost 60
            ([ProbeOutcome.result { success := true, time_ms := some 12 },
              ProbeOutcome.result { success := false, time_ms := none }].filterMap
                resultSample)
      ∧ ([ProbeOutcome.result { success := true, time_ms := some 12 },
          ProbeOutcome.result { success := false, time_ms := none }].foldl
            recordPing initPing).pingHistory.length ≤ 60) :=
  ⟨by decide, c1_capacity_amended _ (by decide)⟩

/-- C2: after every sequence of record() calls, `received ≤ sent` in both the
single-target (`doPing`) and multi-target (`doPingAll`/`doPingBatch`) states,
and the derived loss ratio `(sent - received) / sent` (0 when `sent = 0`)
lies in [0,1].  Additionally, a resolved outcome always increments `sent`,
and increments `received` exactly when it is a successful latency value. -/
theorem c2_counters_invariant (os : List ProbeOutcome) (d : DeviceData)
    (s : PingState) (r : PingOneResult) :
    (os.foldl recordPing initPing).received ≤ (os.foldl recordPing initPing).sent
    ∧ 0 ≤ lossRatePing (os.foldl recordPing initPing)
    ∧ lossRatePing (os.foldl recordPing initPing) ≤ 1
    ∧ (os.foldl recordBatch initDevice).received ≤ (os.foldl recordBatch initDevice).sent
    ∧ 0 ≤ lossRateDev (os.foldl recordBatch initDevice)
    ∧ lossRateDev (os.foldl recordBatch initDevice) ≤ 1
    ∧ (recordPing s (.result r)).sent = s.sent + 1
    ∧ ((recordPing s (.result r)).received = s.received + 1 ↔ successValue r ≠ none)
    ∧ (recordBatch d (.result r)).sent = d.sent + 1
    ∧ ((recordBatch d (.result r)).received = d.received + 1 ↔ successValue r ≠ none) := by
  have hp := foldl_recordPing_counters os initPing (Nat.le_refl 0)
  have hb := foldl_recordBatch_counters os initDevice (Nat.le_refl 0)
  have hlp := lossRatio_bounds _ _ hp
  have hlb := lossRatio_bounds _ _ hb
  refine ⟨hp, hlp.1, hlp.2, hb, hlb.1, hlb.2, recordPing_result_sent s r, ?_,
    recordBatch_result_sent d r, ?_⟩
  · rw [recordPing_result_received]
    constructor
    · intro he hn
      rw [if_pos hn] at he
      omega
    · intro hn
      rw [if_neg hn]
  · rw [recordBatch_result_received]
    constructor
    · intro he hn
      rw [if_pos hn] at he
      omega
    · intro hn
      rw [if_neg hn]

/-- C9: the cycle of `doPingBatch` partitions the target list into
consecutive batches (their concatenation is the original list) each of size
at most 5; each batch is awaited in full (`await Promise.all`) before the
next is issued, so the probes in flight at any instant during a cycle are
those of a single batch — at most 5.  The concrete 12-target case splits as
5, 5, 2. -/
theorem c9_batching_bound (targets : List String) :
    (batches 5 targets).flatten = targets
    ∧ ((batches 5 targets).all fun b => b.length ≤ 5) = true
    ∧ (batches 5 ((List.range 12).map toString)).map List.length = [5, 5, 2] := by
  refine ⟨batchesAux_flatten 5 targets.length targets (Nat.le_refl _), ?_, by decide⟩
  rw [List.all_eq_true]
  intro b hb
  simpa using batchesAux_sizes 5 (by norm_num) targets.length targets b hb

/-- C10: the thrown-probe `catch` of the multi-target paths appends a null
sample but leaves `sent`, `received` (hence the loss ratio) untouched and
skips the 60-entry trim — the history grows by one unconditionally — while a
resolved record never leaves the history above `max` of its previous length
and 60. -/
theorem c10_thrown_bypass (d : DeviceData) (r : PingOneResult) :
    (recordBatch d .thrown).history = d.history ++ [none]
    ∧ (recordBatch d .thrown).history.length = d.history.length + 1
    ∧ (recordBatch d .thrown).sent = d.sent
    ∧ (recordBatch d .thrown).received = d.received
    ∧ lossRateDev (recordBatch d .thrown) = lossRateDev d
    ∧ (recordBatch d (.result r)).history.length ≤ max d.history.length 60 := by
  refine ⟨rfl, by simp [recordBatch], rfl, rfl, rfl, ?_⟩
  rw [recordBatch_result_history]
  unfold trimStep
  split
  · rename_i hcond
    simp only [List.length_tail, List.length_append, List.length_cons,
      List.length_nil] at hcond ⊢
    omega
  · rename_i hcond
    simp only [List.length_append, List.length_cons, List.length_nil] at hcond ⊢
    omega

/-- A host entry used in the port-merge counterexamples: port 8080 owned by
process `nginx`. -/
def nginxPort : PortInfo :=
  { port := 8080, protocol := "TCP", address := "*", pid := "321", process := "nginx",
    user := "root", command := none }

/-- A running container with an empty name publishing host port 8080. -/
def unnamedContainers : List DockerContainer :=
  [{ id := "abc", name := "", image := "img", status := "Up",
     ports := [{ host_port := 8080, container_port := 80, protocol := "tcp",
                 host_ip := "0.0.0.0" }] }]

/-- A container named `web` publishing host port 8080. -/
def webContainers : List DockerContainer :=
  [{ id := "abc", name := "web", image := "img", status := "Up",
     ports := [{ host_port := 8080, container_port := 80, protocol := "tcp",
                 host_ip := "0.0.0.0" }] }]

/-- C3, counterexample: the claim says every entry whose port number appears
in the container host-port lookup gets container provenance.  With a
container whose name is the empty string, port 8080 is in the lookup
(`mapGet` returns `some ""`), yet the rendered entry keeps host-local
provenance and displays the process name, because `!!dockerContainer` is
false for the empty string. -/
theorem c3_provenance_counterexample :
    mapGet (buildDockerPorts unnamedContainers) 8080 = some ""
    ∧ scanPipeline [nginxPort] (Except.ok unnamedContainers) noFilters
        = [⟨nginxPort, Provenance.host, "nginx"⟩]
    ∧ (renderPort (buildDockerPorts unnamedContainers) nginxPort).provenance
        ≠ Provenance.docker "" := by
  refine ⟨by decide, by decide, by decide⟩

/-- C3, amended: a merged entry gets `Container(name)` provenance and the
container name as displayed identity exactly when its port number maps to a
non-empty container name in the lookup; a port that is absent from the
lookup, or maps to an empty container name, keeps `Local` provenance and the
process name; and no entry carries both provenances. -/
theorem c3_provenance_amended (ports : List PortInfo) (cs : List DockerContainer)
    (f : ScanFilters) (r : RenderedPort) (name : String)
    (hr : r ∈ scanPipeline ports (Except.ok cs) f) :
    (mapGet (buildDockerPorts cs) r.info.port = some name → name ≠ "" →
      r.provenance = Provenance.docker name ∧ r.display = name)
    ∧ (mapGet (buildDockerPorts cs) r.info.port = none →
      r.provenance = Provenance.host ∧ r.display = r.info.process)
    ∧ (mapGet (buildDockerPorts cs) r.info.port = some "" →
      r.provenance = Provenance.host ∧ r.display = r.info.process)
    ∧ ¬(r.provenance = Provenance.host ∧ r.provenance = Provenance.docker name) := by
  simp only [scanPipeline] at hr
  obtain ⟨p, hp, rfl⟩ := List.mem_map.mp hr
  have hexcl : ∀ q : Provenance, ¬(q = Provenance.host ∧ q = Provenance.docker name) := by
    rintro q ⟨h1, h2⟩
    rw [h1] at h2
    exact Provenance.noConfusion h2
  rw [renderPort_info]
  unfold renderPort
  cases hm : mapGet (buildDockerPorts cs) p.port with
  | none =>
    exact ⟨fun hs => Option.noConfusion hs, fun _ => ⟨rfl, rfl⟩,
      fun hs => Option.noConfusion hs, hexcl _⟩
  | some n =>
    by_cases hn : n = ""
    · subst hn
      refine ⟨fun hs hne => absurd (Option.some.inj hs).symm hne,
        fun hs => Option.noConfusion hs, fun _ => by simp, hexcl _⟩
    · refine ⟨?_, fun hs => Option.noConfusion hs, ?_, hexcl _⟩
      · intro hs _
        have hname : n = name := Option.some.inj hs
        subst hname
        simp [if_neg hn]
      · intro hs
        exact absurd (Option.some.inj hs) hn

/-- Witness for C3 (amended): the `web` container publishing port 8080 over
the `nginx` host entry. -/
theorem c3_provenance_amended_witness :
    (⟨nginxPort, Provenance.docker "web", "web"⟩ : RenderedPort)
        ∈ scanPipeline [nginxPort] (Except.ok webContainers) noFilters
    ∧ ((mapGet (buildDockerPorts webContainers)
          (⟨nginxPort, Provenance.docker "web", "web"⟩ : RenderedPort).info.port
            = some "web" → "web" ≠ "" →
        (⟨nginxPort, Provenance.docker "web", "web"⟩ : RenderedPort).provenance
            = Provenance.docker "web"
        ∧ (⟨nginxPort, Provenance.docker "web", "web"⟩ : RenderedPort).display = "web")
      ∧ (mapGet (buildDockerPorts webContainers)
          (⟨nginxPort, Provenance.docker "web", "web"⟩ : RenderedPort).info.port = none →
        (⟨nginxPort, Provenance.docker "web", "web"⟩ : RenderedPort).provenance
            = Provenance.host
        ∧ (⟨nginxPort, Provenance.docker "web", "web"⟩ : RenderedPort).display
            = (⟨nginxPort, Provenance.docker "web", "web"⟩ : RenderedPort).info.process)
      ∧ (mapGet (buildDockerPorts webContainers)
          (⟨nginxPort, Provenance.docker "web", "web"⟩ : RenderedPort).info.port
            = some "" →
        (⟨nginxPort, Provenance.docker "web", "web"⟩ : RenderedPort).provenance
            = Provenance.host
        ∧ (⟨nginxPort, Provenance.docker "web", "web"⟩ : RenderedPort).display
            = (⟨nginxPort, Provenance.docker "web", "web"⟩ : RenderedPort).info.process)
      ∧ ¬((⟨nginxPort, Provenance.docker "web", "web"⟩ : RenderedPort).provenance
            = Provenance.host
          ∧ (⟨nginxPort, Provenance.docker "web", "web"⟩ : RenderedPort).provenance
            = Provenance.docker "web")) :=
  ⟨by decide, c3_provenance_amended [nginxPort] webContainers noFilters _ "web" (by decide)⟩

/-- The filter configuration of the C4 counterexample: name filter `web`. -/
def webFilter : ScanFilters :=
  { appFilterValue := "web", portFilterNum := none, excludeSystem := false,
    sourceFilter := .all }

/-- C4, counterexample: port 8080 is published by container `web` and its
displayed identity is `web`, yet with name filter `web` the code's pipeline
drops the entry — the filter ran against the raw process name `nginx` — while
the claimed displayed-identity filtering would keep it. -/
theorem c4_filter_counterexample :
    scanPipeline [nginxPort] (Except.ok webContainers) webFilter = []
    ∧ specIdentityPipeline [nginxPort] (Except.ok webContainers) webFilter
        = [⟨nginxPort, Provenance.docker "web", "web"⟩]
    ∧ (renderPort (buildDockerPorts webContainers) nginxPort).display = "web" := by
  refine ⟨by decide, by decide, by decide⟩

/-- C4, amended: the name-substring filter and the system-process exclusion
are evaluated against the raw host process name, before and independently of
the provenance rewrite: with source scope `all`, the filtering result does
not depend on the container inventory at all, and equals a plain filter by
the raw-name/port predicate `rawKeep`. -/
theorem c4_filter_amended (f : ScanFilters) (m m2 : List (ℕ × String))
    (ports : List PortInfo) (h : f.sourceFilter = SourceFilter.all) :
    applyFilters f m ports = applyFilters f m2 ports
    ∧ applyFilters f m ports = ports.filter (rawKeep f) := by
  rw [applyFilters_all_eq_rawKeep f m ports h, applyFilters_all_eq_rawKeep f m2 ports h]
  exact ⟨rfl, rfl⟩

/-- Witness for C4 (amended): the `web`-name filter applied over two
different container inventories yields the same (empty) survivor set. -/
theorem c4_filter_amended_witness :
    webFilter.sourceFilter = SourceFilter.all
    ∧ (applyFilters webFilter (buildDockerPorts webContainers) [nginxPort]
        = applyFilters webFilter [] [nginxPort]
      ∧ applyFilters webFilter (buildDockerPorts webContainers) [nginxPort]
        = [nginxPort].filter (rawKeep webFilter)) :=
  ⟨rfl, c4_filter_amended webFilter (buildDockerPorts webContainers) [] [nginxPort] rfl⟩

/-- C5: when the container listing fails, `scanPorts` proceeds with an empty
lookup: the refresh result is identical to a refresh with an empty container
inventory, every produced entry keeps host-local provenance and displays its
process name, and with no filters active the result is exactly the host
inventory.  The pipeline is a total function — the container failure is
absorbed, never propagated to the caller. -/
theorem c5_container_failure (ports : List PortInfo) (msg : String) (f : ScanFilters) :
    scanPipeline ports (Except.error msg) f = scanPipeline ports (Except.ok []) f
    ∧ ((scanPipeline ports (Except.error msg) f).all
        fun r => (r.provenance == Provenance.host) && (r.display == r.info.process)) = true
    ∧ scanPipeline ports (Except.error msg) noFilters
        = ports.map (fun p => ⟨p, Provenance.host, p.process⟩) := by
  refine ⟨rfl, ?_, ?_⟩
  · rw [List.all_eq_true]
    intro r hr
    simp only [scanPipeline] at hr
    obtain ⟨p, hp, rfl⟩ := List.mem_map.mp hr
    rw [renderPort_nil]
    simp
  · have h1 : applyFilters noFilters ([] : List (ℕ × String)) ports = ports := rfl
    show (applyFilters noFilters [] ports).map (renderPort []) = _
    rw [h1]
    apply List.map_congr_left
    intro p _
    exact renderPort_nil p

/-- A 61-outcome single-target run: one 4ms success, 59 10ms successes, one
failure.  After it, the oldest success has been evicted from `pingHistory`
but still sits in `times`. -/
def mixedTrace : List ProbeOutcome :=
  ProbeOutcome.result { success := true, time_ms := some 4 }
    :: List.replicate 59 (ProbeOutcome.result { success := true, time_ms := some 10 })
    ++ [ProbeOutcome.result { success := false, time_ms := none }]

set_option maxRecDepth 8000 in
/-- C6, counterexample.  Two divergences from the claim on the single-target
path: (1) after one failed probe no successful sample is buffered — the
claimed average is absent — yet the code computes the number 0 and renders
it; (2) after `mixedTrace` the mean over the successful samples still held in
the history buffer is 10, but the code computes 99/10, because it averages
the separate `times` list, which still contains the evicted 4ms sample. -/
theorem c6_average_counterexample :
    avgMs (recordPing initPing (.result { success := false, time_ms := none })) = 0
    ∧ bufferedSuccessAvg
        (recordPing initPing
          (.result { success := false, time_ms := none })).pingHistory = none
    ∧ (recordPing initPing
        (.result { success := false, time_ms := none })).pingHistory = [none]
    ∧ avgMs (mixedTrace.foldl recordPing initPing) = 99 / 10
    ∧ bufferedSuccessAvg (mixedTrace.foldl recordPing initPing).pingHistory = some 10
    ∧ (99 / 10 : ℚ) ≠ 10 := by
  have ht : (mixedTrace.foldl recordPing initPing).times
      = 4 :: List.replicate 59 10 := by decide
  have hh : (mixedTrace.foldl recordPing initPing).pingHistory
      = List.replicate 59 (some 10) ++ [none] := by decide
  have hf : ((List.replicate 59 (some (10 : ℚ)) ++ [none]).filterMap id)
      = List.replicate 59 10 := by decide
  refine ⟨by decide, by decide, by decide, ?_, ?_, by norm_num⟩
  · rw [avgMs, ht]
    rw [if_pos (by simp)]
    simp [List.sum_replicate, nsmul_eq_mul]
    norm_num
  · rw [bufferedSuccessAvg, hh, hf]
    rw [show List.replicate 59 (10 : ℚ) = 10 :: List.replicate 58 10 from rfl]
    simp [List.sum_replicate, nsmul_eq_mul]
    norm_num

/-- C6, amended: in the multi-device spectrum legend the average is the mean
over exactly the non-null samples currently buffered and is absent (`null`)
when none is buffered; in the single-target `doPing` path the average is
computed over the separate 60-capped `times` list of successful samples
(which can retain samples already evicted from the displayed history) and is
the number 0 — not absent — when no success has been recorded. -/
theorem c6_average_amended (os : List ProbeOutcome) (d : DeviceData)
    (h : ∀ o ∈ os, outcomeSample o = none) :
    avgMs (os.foldl recordPing initPing) = 0
    ∧ spectrumAvg (os.foldl recordBatch initDevice) = none
    ∧ spectrumAvg d = bufferedSuccessAvg d.history := by
  refine ⟨?_, ?_, ?_⟩
  · have ht := foldl_recordPing_times_nil os initPing h rfl
    rw [avgMs, ht]
    simp
  · have hall := foldl_recordBatch_allNone os initDevice h (by intro x hx; simp [initDevice] at hx)
    have hnil : (os.foldl recordBatch initDevice).history.filterMap id = [] := by
      rw [List.filterMap_eq_nil_iff]
      intro a ha
      simp [hall a ha]
    rw [spectrumAvg]
    simp [hnil]
  · rw [spectrumAvg, bufferedSuccessAvg]
    cases hfm : d.history.filterMap id with
    | nil => simp [hfm]
    | cons x xs => simp [hfm]

/-- Witness for C6 (amended): a thrown outcome and a failed probe, and a
device buffer holding one 7ms success. -/
theorem c6_average_amended_witness :
    [ProbeOutcome.thrown,
        ProbeOutcome.result { success := false, time_ms := none }].map outcomeSample
      = [none, none]
    ∧ (avgMs ([ProbeOutcome.thrown,
          ProbeOutcome.result { success := false, time_ms := none }].foldl
            recordPing initPing) = 0
      ∧ spectrumAvg ([ProbeOutcome.thrown,
          ProbeOutcome.result { success := false, time_ms := none }].foldl
            recordBatch initDevice) = none
      ∧ spectrumAvg { history := [some 7, none], lastMs := some 7, sent := 2, received := 1 }
        = bufferedSuccessAvg
            ({ history := [some 7, none], lastMs := some 7, sent := 2,
               received := 1 } : DeviceData).history) :=
  ⟨by decide,
    c6_average_amended
      [ProbeOutcome.thrown, ProbeOutcome.result { success := false, time_ms := none }]
      { history := [some 7, none], lastMs := some 7, sent := 2, received := 1 }
      (by decide)⟩

/-- C7, counterexample: the claim says calling start on a Running loop fails
with AlreadyRunning and leaves the loop running.  In the code, `runPing` on a
running loop instead stops it (`stopPingMonitor`) and returns — the loop is
no longer running — and `startMonitor` performs no check at all: a second
start schedules a second interval loop while the first is still live. -/
theorem c7_start_counterexample :
    (runPingToggle { running := true, st := initPing }).running = false
    ∧ (startMonitorStep (startMonitorStep { liveIntervals := 0, handle := none } 1)
        2).liveIntervals = 2 := by
  refine ⟨by decide, by decide⟩

/-- C7, amended: calling start while a loop is running never fails with an
AlreadyRunning error: the single-target `runPing` treats it as a toggle,
stopping the running loop and leaving the metric state otherwise unchanged;
the device-grid `startMonitor` performs no running check — each call
schedules one more interval loop, and a second start followed by `stopMonitor`
still leaves the first (orphaned) loop live. -/
theorem c7_start_amended (m : PingMonitor) (sched : MonitorSched) (id1 id2 : ℕ)
    (h : m.running = true) :
    runPingToggle m = { m with running := false }
    ∧ (startMonitorStep sched id1).liveIntervals = sched.liveIntervals + 1
    ∧ (startMonitorStep sched id1).handle = some id1
    ∧ (stopMonitorStep (startMonitorStep (startMonitorStep sched id1) id2)).liveIntervals
        = sched.liveIntervals + 1 := by
  refine ⟨?_, rfl, rfl, ?_⟩
  · rw [runPingToggle, if_pos h]
  · simp [startMonitorStep, stopMonitorStep]

/-- Witness for C7 (amended) at a running single-target loop and a fresh
monitor scheduler. -/
theorem c7_start_amended_witness :
    ({ running := true, st := initPing } : PingMonitor).running = true
    ∧ (runPingToggle { running := true, st := initPing }
        = { running := false, st := initPing }
      ∧ (startMonitorStep { liveIntervals := 0, handle := none } 1).liveIntervals = 0 + 1
      ∧ (startMonitorStep { liveIntervals := 0, handle := none } 1).handle = some 1
      ∧ (stopMonitorStep (startMonitorStep
            (startMonitorStep { liveIntervals := 0, handle := none } 1) 2)).liveIntervals
        = 0 + 1) :=
  ⟨rfl, c7_start_amended { running := true, st := initPing }
    { liveIntervals := 0, handle := none } 1 2 rfl⟩

/-- C8: stopping mid-cycle drains cleanly.  If a batch is in flight when
`stopMonitor` runs, the batch still settles into the per-device buffers
exactly as it would have without the stop; the interval is no longer active,
and in any valid continuation of the stopped scheduler no further cycle tick
can fire; a second `stopMonitor` on the already-stopped scheduler is a
no-op (and, the transition being a total function, never an error). -/
theorem c8_stop_semantics (s : SchedState) (outs : List (String × ProbeOutcome))
    (evs : List SchedEv) (h : s.pending = some outs)
    (hrun : ValidRun (schedStep s SchedEv.stopEv) evs) :
    (schedStep (schedStep s .stopEv) .settle).bufs = recordAll s.bufs outs
    ∧ (schedStep (schedStep s .stopEv) .settle).pending = none
    ∧ (schedStep s .stopEv).intervalActive = false
    ∧ (evs.all fun e => !e.isTick) = true
    ∧ schedStep (schedStep s .stopEv) .stopEv = schedStep s .stopEv := by
  refine ⟨?_, ?_, rfl, validRun_no_tick _ _ rfl hrun, rfl⟩
  · show (schedStep { s with intervalActive := false } .settle).bufs = _
    rw [schedStep]
    simp [h]
  · show (schedStep { s with intervalActive := false } .settle).pending = none
    rw [schedStep]
    simp [h]

/-- The concrete scheduler state of the C8 witness: one device, one
successful probe in flight. -/
def stopDemoOuts : List (String × ProbeOutcome) :=
  [("10.0.0.2", ProbeOutcome.result { success := true, time_ms := some 12 })]

/-- One-device scheduler state with `stopDemoOuts` in flight. -/
def stopDemoState : SchedState :=
  { intervalActive := true, pending := some stopDemoOuts,
    bufs := [("10.0.0.2", initDevice)] }

/-- Witness for C8 at a one-device scheduler with one successful probe in
flight when the stop arrives. -/
theorem c8_stop_semantics_witness :
    stopDemoState.pending = some stopDemoOuts
    ∧ ((schedStep (schedStep stopDemoState .stopEv) .settle).bufs
        = recordAll stopDemoState.bufs stopDemoOuts
      ∧ (schedStep (schedStep stopDemoState .stopEv) .settle).pending = none
      ∧ (schedStep stopDemoState .stopEv).intervalActive = false
      ∧ (([SchedEv.settle] : List SchedEv).all fun e => !e.isTick) = true
      ∧ schedStep (schedStep stopDemoState .stopEv) .stopEv
        = schedStep stopDemoState .stopEv) :=
  ⟨rfl, c8_stop_semantics stopDemoState stopDemoOuts [SchedEv.settle] rfl
    (ValidRun.cons rfl (ValidRun.nil _))⟩
